import Mathlib

/-!
Verification of the EEPROManager library (EEPROManager.h).

The storage device is modelled as a byte-addressed memory together with a
capacity (the EEPROM collaborator: get, put, length).  Bytes are natural
numbers reduced modulo 256 on store; reads outside the addressable range
return the erased sentinel 255.  Multi-byte values are serialized
little-endian, as on the Arduino targets the library is written for.

The manager state mirrors the private members of the EEPROManager class:
_ADDRESS, *_MEMORY (the bound record, as its list of bytes), _ENTRY_KEY,
_ENTRY_CRC8, _ENTRY_WRITE_COUNT, _ENTRY_LENGTH and _ENTRY_CRC32.

The checksum collaborator (crc8, crc32 from the CRC library) is kept
abstract as a pair of deterministic functions over byte lists; a concrete
instance implementing the CRC-8 polynomial 0x07 (the CRC library default)
is provided for concrete runs.
-/

namespace EEPROManager

/-- The storage device: byte-addressed memory plus capacity. -/
structure Device where
  mem : Nat → Nat
  cap : Nat

/-- Read one byte. Out-of-range reads return the erased sentinel 255. -/
def readByte (d : Device) (a : Nat) : Nat :=
  if a < d.cap then d.mem a % 256 else 255

/-- Write one byte (value reduced modulo 256, as a uint8 store). -/
def writeByte (d : Device) (a v : Nat) : Device :=
  { d with mem := fun x => if x = a then v % 256 else d.mem x }

/-- Little-endian read of an n-byte unsigned value (EEPROM.get). -/
def readLE : Device → Nat → Nat → Nat
  | _, _, 0 => 0
  | d, a, n + 1 => readByte d a + 256 * readLE d (a + 1) n

/-- Little-endian write of an n-byte unsigned value (EEPROM.put). -/
def writeLE : Device → Nat → Nat → Nat → Device
  | d, _, 0, _ => d
  | d, a, n + 1, v => writeLE (writeByte d a v) (a + 1) n (v / 256)

/-- Read n raw bytes (EEPROM.get of a struct). -/
def readBytes : Device → Nat → Nat → List Nat
  | _, _, 0 => []
  | d, a, n + 1 => readByte d a :: readBytes d (a + 1) n

/-- Write raw bytes (EEPROM.put of a struct). -/
def writeBytes : Device → Nat → List Nat → Device
  | d, _, [] => d
  | d, a, b :: bs => writeBytes (writeByte d a b) (a + 1) bs

/-- A device whose every cell holds the erased sentinel. -/
def erasedDev (cap : Nat) : Device := { mem := fun _ => 255, cap := cap }

/-- The checksum collaborator: crc8 and crc32 over byte sequences. -/
structure CRC where
  crc8 : List Nat → Nat
  crc32 : List Nat → Nat

/-- The EEPROManager instance state (the private members of the class). -/
structure Manager where
  addr : Nat
  mem : List Nat
  key : Nat
  crc8v : Nat
  count : Nat
  len : Nat
  crc32v : Nat

/-- EEPROManager::initialise: set the shadow CRC8 (computed over a single
byte of the key, sizeof(uint8_t)), write count 1, length sizeof(T) and the
CRC32 of the bound record. -/
def initialise (C : CRC) (m : Manager) : Manager :=
  { m with crc8v := C.crc8 [m.key % 256] % 256,
           count := 1,
           len := m.mem.length % 65536,
           crc32v := C.crc32 m.mem % 4294967296 }

/-- The scan loop of EEPROManager::locate.  _ADDRESS is a uint16_t, so
the skip step _ADDRESS += length + 13 wraps modulo 2 to the 16; with a
stored length of 65523 - address the scan can therefore re-probe an
earlier address, and in particular re-probe the same address forever.
The fuel argument bounds the number of iterations: from an in-range
address the next probe address is a deterministic function of the device,
so a run that has not terminated within cap + 1 iterations has revisited
an address and the source loop never terminates; locate passes fuel
cap + 1, and on fuel exhaustion (the diverging runs of the source) the
loop reports not found. -/
def locateLoop (C : CRC) (d : Device) (key maxW : Nat) : Nat → Nat → Nat × Bool
  | 0, a => (a, false)
  | fuel + 1, a =>
    if a < d.cap then
      let k := readLE d a 2
      let kc := readByte d (a + 2)
      if C.crc8 [k % 256] % 256 = kc then
        let cnt := readLE d (a + 3) 4
        let ln := readLE d (a + 7) 2
        if k = key ∧ cnt < maxW then (a, true)
        else locateLoop C d key maxW fuel ((a + ln + 13) % 65536)
      else (a, false)
    else (a, false)

/-- EEPROManager::locate: scan from the current _ADDRESS, updating it. -/
def locate (C : CRC) (maxW : Nat) (d : Device) (m : Manager) : Manager × Bool :=
  ({ m with addr := (locateLoop C d m.key maxW (d.cap + 1) m.addr).1 },
   (locateLoop C d m.key maxW (d.cap + 1) m.addr).2)

/-- EEPROManager::read: deserialize write count, payload and CRC32 from the
entry at the current address into the shadow state and the bound record. -/
def read (d : Device) (m : Manager) : Manager :=
  { m with count := readLE d (m.addr + 3) 4,
           mem := readBytes d (m.addr + 9) m.mem.length,
           crc32v := readLE d (m.addr + 9 + m.mem.length) 4 }

/-- EEPROManager::write: serialize the full entry (key, key CRC8, write
count, length, payload, payload CRC32) at the current address. -/
def write (d : Device) (m : Manager) : Device :=
  writeLE
    (writeBytes
      (writeLE
        (writeLE
          (writeByte
            (writeLE d m.addr 2 m.key)
            (m.addr + 2) m.crc8v)
          (m.addr + 3) 4 m.count)
        (m.addr + 7) 2 m.len)
      (m.addr + 9) m.mem)
    (m.addr + 9 + m.mem.length) 4 m.crc32v

/-- EEPROManager::begin: initialise, locate, then read the found entry or
write a fresh one at the candidate address. -/
def begin (C : CRC) (maxW : Nat) (d : Device) (m : Manager) : Device × Manager :=
  if (locate C maxW d (initialise C m)).2 then
    (d, read d (locate C maxW d (initialise C m)).1)
  else
    (write d (locate C maxW d (initialise C m)).1,
     (locate C maxW d (initialise C m)).1)

/-- The manager state right after the constructor binds MEMORY and KEY
(a uint16) and before begin runs: _ADDRESS starts at 0, the remaining
members are still default-initialized. -/
def freshMgr (memory : List Nat) (key : Nat) : Manager :=
  { addr := 0, mem := memory, key := key % 65536,
    crc8v := 0, count := 0, len := 0, crc32v := 0 }

/-- The EEPROManager constructor: bind the record and key, then begin. -/
def construct (C : CRC) (maxW : Nat) (d : Device) (memory : List Nat) (key : Nat) :
    Device × Manager :=
  begin C maxW d (freshMgr memory key)

/-- The three EEPROM.put calls update() performs in place at the active
address: write count, payload, payload CRC32 (key, CRC8 and length are not
rewritten). -/
def updateWrites (d : Device) (m : Manager) : Device :=
  writeLE
    (writeBytes
      (writeLE d (m.addr + 3) 4 m.count)
      (m.addr + 9) m.mem)
    (m.addr + 9 + m.mem.length) 4 m.crc32v

/-- The shadow-state mutation at the top of the changed-data branch of
update(): increment _ENTRY_WRITE_COUNT (a uint32) and recompute
_ENTRY_CRC32 from the bound record. -/
def updateBump (C : CRC) (m : Manager) : Manager :=
  { m with count := (m.count + 1) % 4294967296,
           crc32v := C.crc32 m.mem % 4294967296 }

/-- The relocation step of update(), entered once the write count has
reached EEPROM_MAX_WRITES: call locate (its return value is ignored, only
_ADDRESS matters), then either write the full entry at the new address
with write count reset to 1, or return the 0xFFFFFFFF sentinel.  The
space check is the unsigned comparison of the source, with the
subtraction wrapping at 2 to the 32. -/
def updateRelocate (C : CRC) (maxW : Nat) (d1 : Device) (m1 : Manager) :
    Device × Manager × Nat :=
  if (locate C maxW d1 m1).1.addr <
      (d1.cap + 4294967296 - (13 + m1.mem.length)) % 4294967296 then
    (write d1 { (locate C maxW d1 m1).1 with count := 1 },
     { (locate C maxW d1 m1).1 with count := 1 }, 1)
  else
    (d1, (locate C maxW d1 m1).1, 4294967295)

/-- EEPROManager::update. Returns the updated device, manager and the
uint32 return value (0: unchanged, 0xFFFFFFFF: exhausted, otherwise the
write count). -/
def update (C : CRC) (maxW : Nat) (d : Device) (m : Manager) : Device × Manager × Nat :=
  if C.crc32 m.mem % 4294967296 = m.crc32v then (d, m, 0)
  else
    if (updateBump C m).count ≥ maxW then
      updateRelocate C maxW (updateWrites d (updateBump C m)) (updateBump C m)
    else
      (updateWrites d (updateBump C m), updateBump C m, (updateBump C m).count)

/-- EEPROManager::force: an unconditional write of the current entry. -/
def force (d : Device) (m : Manager) : Device × Manager := (write d m, m)

/-- The erase loop of EEPROManager::wipe: write the sentinel 255 to n
consecutive addresses starting at i (EEPROM.update writes only changed
bytes, which is observationally the same). -/
def wipeLoop : Device → Nat → Nat → Device
  | d, _, 0 => d
  | d, i, n + 1 => wipeLoop (writeByte d i 255) (i + 1) n

/-- EEPROManager::wipe: erase every addressable byte, then re-run begin. -/
def wipe (C : CRC) (maxW : Nat) (d : Device) (m : Manager) : Device × Manager :=
  begin C maxW (wipeLoop d 0 d.cap) m

/-! ### Concrete checksum instance

One step of the CRC-8 shift register with polynomial 0x07, the default of
the CRC library the header includes; crc32 is any deterministic digest
(only determinism is relied on). -/

def crc8Step (c : Nat) : Nat :=
  if 128 ≤ c then ((c * 2) % 256) ^^^ 7 else (c * 2) % 256

def crc8Byte (c b : Nat) : Nat :=
  crc8Step (crc8Step (crc8Step (crc8Step
    (crc8Step (crc8Step (crc8Step (crc8Step ((c ^^^ b) % 256))))))))

def crc8fn (bs : List Nat) : Nat := bs.foldl crc8Byte 0

def crc32fn (bs : List Nat) : Nat :=
  bs.foldl (fun a b => (a * 256 + b + 1) % 4294967296) 0

def cInst : CRC := { crc8 := crc8fn, crc32 := crc32fn }

/-! ### Basic device lemmas -/

theorem writeByte_cap (d : Device) (a v : Nat) : (writeByte d a v).cap = d.cap := rfl

theorem writeLE_cap : ∀ (n : Nat) (d : Device) (a v : Nat), (writeLE d a n v).cap = d.cap
  | 0, _, _, _ => rfl
  | n + 1, d, a, v => writeLE_cap n (writeByte d a v) (a + 1) (v / 256)

theorem writeBytes_cap : ∀ (bs : List Nat) (d : Device) (a : Nat),
    (writeBytes d a bs).cap = d.cap
  | [], _, _ => rfl
  | b :: bs, d, a => writeBytes_cap bs (writeByte d a b) (a + 1)

theorem wipeLoop_cap : ∀ (n : Nat) (d : Device) (i : Nat), (wipeLoop d i n).cap = d.cap
  | 0, _, _ => rfl
  | n + 1, d, i => wipeLoop_cap n (writeByte d i 255) (i + 1)

theorem readByte_lt (d : Device) (a : Nat) : readByte d a < 256 := by
  unfold readByte
  split
  · exact Nat.mod_lt _ (by norm_num)
  · norm_num

theorem readByte_writeByte_same (d : Device) (a v : Nat) (h : a < d.cap) :
    readByte (writeByte d a v) a = v % 256 := by
  simp [readByte, writeByte, h]

theorem readByte_writeByte_ne (d : Device) (a v x : Nat) (h : x ≠ a) :
    readByte (writeByte d a v) x = readByte d x := by
  simp [readByte, writeByte, h]

theorem readByte_writeLE : ∀ (n : Nat) (d : Device) (a v x : Nat),
    (x < a ∨ a + n ≤ x) → readByte (writeLE d a n v) x = readByte d x := by
  intro n
  induction n with
  | zero => intro d a v x _; rfl
  | succ n ih =>
    intro d a v x h
    show readByte (writeLE (writeByte d a v) (a + 1) n (v / 256)) x = readByte d x
    rw [ih (writeByte d a v) (a + 1) (v / 256) x (by omega)]
    exact readByte_writeByte_ne d a v x (by omega)

theorem readByte_writeBytes : ∀ (bs : List Nat) (d : Device) (a x : Nat),
    (x < a ∨ a + bs.length ≤ x) → readByte (writeBytes d a bs) x = readByte d x := by
  intro bs
  induction bs with
  | nil => intro d a x _; rfl
  | cons b bs ih =>
    intro d a x h
    simp only [List.length_cons] at h
    show readByte (writeBytes (writeByte d a b) (a + 1) bs) x = readByte d x
    rw [ih (writeByte d a b) (a + 1) x (by omega)]
    exact readByte_writeByte_ne d a b x (by omega)

theorem readLE_congr : ∀ (n : Nat) (d1 d2 : Device) (a : Nat),
    (∀ i, i < n → readByte d1 (a + i) = readByte d2 (a + i)) →
    readLE d1 a n = readLE d2 a n := by
  intro n
  induction n with
  | zero => intro _ _ _ _; rfl
  | succ n ih =>
    intro d1 d2 a h
    show readByte d1 a + 256 * readLE d1 (a + 1) n =
         readByte d2 a + 256 * readLE d2 (a + 1) n
    rw [show a = a + 0 by omega] at h ⊢
    rw [h 0 (by omega)]
    congr 2
    exact ih d1 d2 (a + 0 + 1) (fun i hi => by
      have := h (i + 1) (by omega)
      rw [show a + 0 + (i + 1) = a + 0 + 1 + i by omega] at this
      exact this)

theorem readBytes_congr : ∀ (n : Nat) (d1 d2 : Device) (a : Nat),
    (∀ i, i < n → readByte d1 (a + i) = readByte d2 (a + i)) →
    readBytes d1 a n = readBytes d2 a n := by
  intro n
  induction n with
  | zero => intro _ _ _ _; rfl
  | succ n ih =>
    intro d1 d2 a h
    show readByte d1 a :: readBytes d1 (a + 1) n =
         readByte d2 a :: readBytes d2 (a + 1) n
    have h0 := h 0 (by omega)
    simp only [Nat.add_zero] at h0
    rw [h0]
    congr 1
    exact ih d1 d2 (a + 1) (fun i hi => by
      have := h (i + 1) (by omega)
      rw [show a + (i + 1) = a + 1 + i by omega] at this
      exact this)

theorem readLE_writeLE_same : ∀ (n : Nat) (d : Device) (a v : Nat),
    a + n ≤ d.cap → readLE (writeLE d a n v) a n = v % 256 ^ n := by
  intro n
  induction n with
  | zero => intro d a v _; simp [readLE, writeLE, Nat.mod_one]
  | succ n ih =>
    intro d a v h
    show readLE (writeLE (writeByte d a v) (a + 1) n (v / 256)) a (n + 1) = _
    show readByte (writeLE (writeByte d a v) (a + 1) n (v / 256)) a
         + 256 * readLE (writeLE (writeByte d a v) (a + 1) n (v / 256)) (a + 1) n = _
    rw [readByte_writeLE n (writeByte d a v) (a + 1) (v / 256) a (by omega)]
    rw [readByte_writeByte_same d a v (by omega)]
    rw [ih (writeByte d a v) (a + 1) (v / 256) (by rw [writeByte_cap]; omega)]
    rw [pow_succ, mul_comm (256 ^ n) 256, Nat.mod_mul]

theorem readBytes_writeBytes_same : ∀ (bs : List Nat) (d : Device) (a : Nat),
    a + bs.length ≤ d.cap → (∀ b ∈ bs, b < 256) →
    readBytes (writeBytes d a bs) a bs.length = bs := by
  intro bs
  induction bs with
  | nil => intro d a _ _; rfl
  | cons b bs ih =>
    intro d a h hb
    simp only [List.length_cons] at h ⊢
    show readByte (writeBytes (writeByte d a b) (a + 1) bs) a
         :: readBytes (writeBytes (writeByte d a b) (a + 1) bs) (a + 1) bs.length
         = b :: bs
    rw [readByte_writeBytes bs (writeByte d a b) (a + 1) a (by omega)]
    rw [readByte_writeByte_same d a b (by omega)]
    rw [Nat.mod_eq_of_lt (hb b (by simp))]
    congr 1
    exact ih (writeByte d a b) (a + 1) (by rw [writeByte_cap]; omega)
      (fun x hx => hb x (by simp [hx]))

theorem readByte_erasedDev (cap a : Nat) : readByte (erasedDev cap) a = 255 := by
  unfold readByte erasedDev
  split <;> norm_num

theorem readByte_oob (d : Device) (x : Nat) (h : ¬ x < d.cap) : readByte d x = 255 := by
  simp [readByte, h]

theorem readByte_writeLE_first (n : Nat) (d : Device) (a v : Nat) (h : a < d.cap) :
    readByte (writeLE d a (n + 1) v) a = v % 256 := by
  show readByte (writeLE (writeByte d a v) (a + 1) n (v / 256)) a = v % 256
  rw [readByte_writeLE n _ (a + 1) (v / 256) a (by omega)]
  exact readByte_writeByte_same d a v h

/-! ### Reading back a full entry written by EEPROManager::write -/

theorem write_cap (d : Device) (m : Manager) : (write d m).cap = d.cap := by
  unfold write
  simp only [writeLE_cap, writeBytes_cap, writeByte_cap]

theorem readByte_write_frame (d : Device) (m : Manager) (x : Nat)
    (h : x < m.addr ∨ m.addr + 13 + m.mem.length ≤ x) :
    readByte (write d m) x = readByte d x := by
  unfold write
  have h1 : x < m.addr + 9 + m.mem.length ∨ m.addr + 9 + m.mem.length + 4 ≤ x := by omega
  rw [readByte_writeLE 4 _ (m.addr + 9 + m.mem.length) m.crc32v x h1]
  have h2 : x < m.addr + 9 ∨ m.addr + 9 + m.mem.length ≤ x := by omega
  rw [readByte_writeBytes m.mem _ (m.addr + 9) x h2]
  have h3 : x < m.addr + 7 ∨ m.addr + 7 + 2 ≤ x := by omega
  rw [readByte_writeLE 2 _ (m.addr + 7) m.len x h3]
  have h4 : x < m.addr + 3 ∨ m.addr + 3 + 4 ≤ x := by omega
  rw [readByte_writeLE 4 _ (m.addr + 3) m.count x h4]
  have h5 : x ≠ m.addr + 2 := by omega
  rw [readByte_writeByte_ne _ (m.addr + 2) m.crc8v x h5]
  have h6 : x < m.addr ∨ m.addr + 2 ≤ x := by omega
  rw [readByte_writeLE 2 _ m.addr m.key x h6]

theorem key_read_write (d : Device) (m : Manager)
    (hfit : m.addr + 13 + m.mem.length ≤ d.cap) :
    readLE (write d m) m.addr 2 = m.key % 65536 := by
  unfold write
  rw [readLE_congr 2 _ _ m.addr
    (fun i hi => readByte_writeLE 4 _ (m.addr + 9 + m.mem.length) m.crc32v _ (by omega))]
  rw [readLE_congr 2 _ _ m.addr
    (fun i hi => readByte_writeBytes m.mem _ (m.addr + 9) _ (by omega))]
  rw [readLE_congr 2 _ _ m.addr
    (fun i hi => readByte_writeLE 2 _ (m.addr + 7) m.len _ (by omega))]
  rw [readLE_congr 2 _ _ m.addr
    (fun i hi => readByte_writeLE 4 _ (m.addr + 3) m.count _ (by omega))]
  rw [readLE_congr 2 _ _ m.addr
    (fun i hi => readByte_writeByte_ne _ (m.addr + 2) m.crc8v _ (by omega))]
  rw [readLE_writeLE_same 2 _ m.addr m.key (by omega)]
  norm_num

theorem key0_read_write (d : Device) (m : Manager)
    (hfit : m.addr + 13 + m.mem.length ≤ d.cap) :
    readByte (write d m) m.addr = m.key % 256 := by
  unfold write
  rw [readByte_writeLE 4 _ (m.addr + 9 + m.mem.length) m.crc32v _ (by omega)]
  rw [readByte_writeBytes m.mem _ (m.addr + 9) _ (by omega)]
  rw [readByte_writeLE 2 _ (m.addr + 7) m.len _ (by omega)]
  rw [readByte_writeLE 4 _ (m.addr + 3) m.count _ (by omega)]
  rw [readByte_writeByte_ne _ (m.addr + 2) m.crc8v _ (by omega)]
  exact readByte_writeLE_first 1 d m.addr m.key (by omega)

theorem kc_read_write (d : Device) (m : Manager)
    (hfit : m.addr + 13 + m.mem.length ≤ d.cap) :
    readByte (write d m) (m.addr + 2) = m.crc8v % 256 := by
  unfold write
  rw [readByte_writeLE 4 _ (m.addr + 9 + m.mem.length) m.crc32v _ (by omega)]
  rw [readByte_writeBytes m.mem _ (m.addr + 9) _ (by omega)]
  rw [readByte_writeLE 2 _ (m.addr + 7) m.len _ (by omega)]
  rw [readByte_writeLE 4 _ (m.addr + 3) m.count _ (by omega)]
  exact readByte_writeByte_same _ (m.addr + 2) m.crc8v (by simp only [writeLE_cap]; omega)

theorem count_read_write (d : Device) (m : Manager)
    (hfit : m.addr + 13 + m.mem.length ≤ d.cap) :
    readLE (write d m) (m.addr + 3) 4 = m.count % 4294967296 := by
  unfold write
  rw [readLE_congr 4 _ _ (m.addr + 3)
    (fun i hi => readByte_writeLE 4 _ (m.addr + 9 + m.mem.length) m.crc32v _ (by omega))]
  rw [readLE_congr 4 _ _ (m.addr + 3)
    (fun i hi => readByte_writeBytes m.mem _ (m.addr + 9) _ (by omega))]
  rw [readLE_congr 4 _ _ (m.addr + 3)
    (fun i hi => readByte_writeLE 2 _ (m.addr + 7) m.len _ (by omega))]
  rw [readLE_writeLE_same 4 _ (m.addr + 3) m.count
    (by simp only [writeByte_cap, writeLE_cap]; omega)]
  norm_num

theorem mem_read_write (d : Device) (m : Manager)
    (hfit : m.addr + 13 + m.mem.length ≤ d.cap) (hb : ∀ b ∈ m.mem, b < 256) :
    readBytes (write d m) (m.addr + 9) m.mem.length = m.mem := by
  unfold write
  rw [readBytes_congr m.mem.length _ _ (m.addr + 9)
    (fun i hi => readByte_writeLE 4 _ (m.addr + 9 + m.mem.length) m.crc32v _ (by omega))]
  rw [readBytes_writeBytes_same m.mem _ (m.addr + 9)
    (by simp only [writeByte_cap, writeLE_cap]; omega) hb]

theorem crc32_read_write (d : Device) (m : Manager)
    (hfit : m.addr + 13 + m.mem.length ≤ d.cap) :
    readLE (write d m) (m.addr + 9 + m.mem.length) 4 = m.crc32v % 4294967296 := by
  unfold write
  rw [readLE_writeLE_same 4 _ (m.addr + 9 + m.mem.length) m.crc32v
    (by simp only [writeByte_cap, writeLE_cap, writeBytes_cap]; omega)]
  norm_num

/-! ### Reading back the partial write performed by update() -/

theorem updateWrites_cap (d : Device) (m : Manager) : (updateWrites d m).cap = d.cap := by
  unfold updateWrites
  simp only [writeLE_cap, writeBytes_cap]

theorem readByte_updateWrites_frame (d : Device) (m : Manager) (x : Nat)
    (h : x < m.addr + 3 ∨ (m.addr + 7 ≤ x ∧ x < m.addr + 9) ∨
      m.addr + 13 + m.mem.length ≤ x) :
    readByte (updateWrites d m) x = readByte d x := by
  unfold updateWrites
  have h1 : x < m.addr + 9 + m.mem.length ∨ m.addr + 9 + m.mem.length + 4 ≤ x := by omega
  rw [readByte_writeLE 4 _ (m.addr + 9 + m.mem.length) m.crc32v x h1]
  have h2 : x < m.addr + 9 ∨ m.addr + 9 + m.mem.length ≤ x := by omega
  rw [readByte_writeBytes m.mem _ (m.addr + 9) x h2]
  have h3 : x < m.addr + 3 ∨ m.addr + 3 + 4 ≤ x := by omega
  rw [readByte_writeLE 4 _ (m.addr + 3) m.count x h3]

theorem count_read_updateWrites (d : Device) (m : Manager)
    (hfit : m.addr + 13 + m.mem.length ≤ d.cap) :
    readLE (updateWrites d m) (m.addr + 3) 4 = m.count % 4294967296 := by
  unfold updateWrites
  rw [readLE_congr 4 _ _ (m.addr + 3)
    (fun i hi => readByte_writeLE 4 _ (m.addr + 9 + m.mem.length) m.crc32v _ (by omega))]
  rw [readLE_congr 4 _ _ (m.addr + 3)
    (fun i hi => readByte_writeBytes m.mem _ (m.addr + 9) _ (by omega))]
  rw [readLE_writeLE_same 4 _ (m.addr + 3) m.count (by omega)]
  norm_num

theorem mem_read_updateWrites (d : Device) (m : Manager)
    (hfit : m.addr + 13 + m.mem.length ≤ d.cap) (hb : ∀ b ∈ m.mem, b < 256) :
    readBytes (updateWrites d m) (m.addr + 9) m.mem.length = m.mem := by
  unfold updateWrites
  rw [readBytes_congr m.mem.length _ _ (m.addr + 9)
    (fun i hi => readByte_writeLE 4 _ (m.addr + 9 + m.mem.length) m.crc32v _ (by omega))]
  rw [readBytes_writeBytes_same m.mem _ (m.addr + 9)
    (by simp only [writeLE_cap]; omega) hb]

theorem crc32_read_updateWrites (d : Device) (m : Manager)
    (hfit : m.addr + 13 + m.mem.length ≤ d.cap) :
    readLE (updateWrites d m) (m.addr + 9 + m.mem.length) 4 = m.crc32v % 4294967296 := by
  unfold updateWrites
  rw [readLE_writeLE_same 4 _ (m.addr + 9 + m.mem.length) m.crc32v
    (by simp only [writeLE_cap, writeBytes_cap]; omega)]
  norm_num

/-! ### The erase loop of wipe() -/

theorem readByte_wipeLoop_frame : ∀ (n : Nat) (d : Device) (i x : Nat), x < i →
    readByte (wipeLoop d i n) x = readByte d x := by
  intro n
  induction n with
  | zero => intro d i x _; rfl
  | succ n ih =>
    intro d i x h
    show readByte (wipeLoop (writeByte d i 255) (i + 1) n) x = readByte d x
    rw [ih (writeByte d i 255) (i + 1) x (by omega)]
    exact readByte_writeByte_ne d i 255 x (by omega)

theorem readByte_wipeLoop_in : ∀ (n : Nat) (d : Device) (i x : Nat), i ≤ x → x < i + n →
    readByte (wipeLoop d i n) x = 255 := by
  intro n
  induction n with
  | zero => intro d i x h1 h2; omega
  | succ n ih =>
    intro d i x h1 h2
    show readByte (wipeLoop (writeByte d i 255) (i + 1) n) x = 255
    rcases Nat.eq_or_lt_of_le h1 with he | hl
    · rw [readByte_wipeLoop_frame n (writeByte d i 255) (i + 1) x (by omega)]
      rw [← he]
      by_cases hc : i < d.cap
      · rw [readByte_writeByte_same d i 255 hc]
      · exact readByte_oob _ i (by rw [writeByte_cap]; exact hc)
    · exact ih (writeByte d i 255) (i + 1) x (by omega) (by omega)

theorem readByte_wiped (d : Device) (x : Nat) : readByte (wipeLoop d 0 d.cap) x = 255 := by
  by_cases h : x < d.cap
  · exact readByte_wipeLoop_in d.cap d 0 x (by omega) (by omega)
  · exact readByte_oob _ x (by rw [wipeLoop_cap]; exact h)

theorem readLE2_const255 (d : Device) (h : ∀ y, readByte d y = 255) (a : Nat) :
    readLE d a 2 = 65535 := by
  show readByte d a + 256 * (readByte d (a + 1) + 256 * 0) = 65535
  rw [h a, h (a + 1)]

/-! ### One-step unfoldings of the locate scan loop -/

theorem locateLoop_oob (C : CRC) (d : Device) (key maxW fuel a : Nat)
    (ha : ¬ a < d.cap) : locateLoop C d key maxW (fuel + 1) a = (a, false) := by
  simp only [locateLoop, if_neg ha]

theorem locateLoop_miss (C : CRC) (d : Device) (key maxW fuel a : Nat)
    (ha : a < d.cap)
    (hmis : ¬ C.crc8 [readLE d a 2 % 256] % 256 = readByte d (a + 2)) :
    locateLoop C d key maxW (fuel + 1) a = (a, false) := by
  simp only [locateLoop, if_pos ha, if_neg hmis]

theorem locateLoop_found (C : CRC) (d : Device) (key maxW fuel a : Nat)
    (ha : a < d.cap)
    (hv : C.crc8 [readLE d a 2 % 256] % 256 = readByte d (a + 2))
    (hm : readLE d a 2 = key ∧ readLE d (a + 3) 4 < maxW) :
    locateLoop C d key maxW (fuel + 1) a = (a, true) := by
  simp only [locateLoop, if_pos ha, if_pos hv, if_pos hm]

theorem locateLoop_skip (C : CRC) (d : Device) (key maxW fuel a : Nat)
    (ha : a < d.cap)
    (hv : C.crc8 [readLE d a 2 % 256] % 256 = readByte d (a + 2))
    (hm : ¬ (readLE d a 2 = key ∧ readLE d (a + 3) 4 < maxW)) :
    locateLoop C d key maxW (fuel + 1) a =
      locateLoop C d key maxW fuel ((a + readLE d (a + 7) 2 + 13) % 65536) := by
  simp only [locateLoop, if_pos ha, if_pos hv, if_neg hm]

/-! ### Concrete scenarios

A 4-byte record, key 1.  Scenario A: a 64-byte device with
EEPROM_MAX_WRITES 2 (the scenario of the specification); scenario C: the
same device with the default limit 100000; scenario B: a 30-byte device
with limit 2, too small for one relocation. -/

def rec1 : List Nat := [1, 2, 3, 4]

def rec2 : List Nat := [5, 6, 7, 8]

def devA : Device := (construct cInst 2 (erasedDev 64) rec1 1).1

def mgrA : Manager := (construct cInst 2 (erasedDev 64) rec1 1).2

/-- The bound record of scenario A after the client mutates it. -/
def mgrA2 : Manager := { mgrA with mem := rec2 }

def devB : Device := (construct cInst 2 (erasedDev 30) rec1 1).1

def mgrB : Manager := (construct cInst 2 (erasedDev 30) rec1 1).2

def mgrB2 : Manager := { mgrB with mem := rec2 }

def devC : Device := (construct cInst 100000 (erasedDev 64) rec1 1).1

def mgrC : Manager := (construct cInst 100000 (erasedDev 64) rec1 1).2

def mgrC2 : Manager := { mgrC with mem := rec2 }

/-- An entry written under key 257 = 0x0101, whose two key bytes are 1, 1. -/
def devK : Device := (construct cInst 100000 (erasedDev 64) rec1 257).1

/-- A fresh manager bound to key 1 whose in-memory record differs from the
durable entry of scenario A. -/
def mgrQ : Manager :=
  { addr := 0, mem := rec2, key := 1, crc8v := 0, count := 0, len := 0, crc32v := 0 }

/-- A manager whose scan address is 17 (as after one relocation). -/
def mgr17 : Manager :=
  { addr := 17, mem := rec1, key := 1, crc8v := 0, count := 0, len := 0, crc32v := 0 }

/-- A device whose byte 2 holds 243 (the CRC-8 of the erased byte 255),
so the garbage header at address 0 passes the one-byte key_check, and
whose byte 7 holds 243 as well, so the stored length reads as
65523 = 0xFFF3 and the uint16 skip step wraps back to address 0. -/
def devW : Device :=
  { mem := fun a => if a = 2 then 243 else if a = 7 then 243 else 255, cap := 64 }

/-! ### The claims -/

/-- C6: when the checksum32 of the bound record equals the shadow
payload_check, update() returns 0, performs no device write and leaves
the manager state unchanged; calling it again therefore returns 0 again
with the device and shadow state still unchanged. -/
theorem spec_c6 (C : CRC) (maxW : Nat) (d : Device) (m : Manager)
    (h : C.crc32 m.mem % 4294967296 = m.crc32v) :
    update C maxW d m = (d, m, 0) ∧
    update C maxW (update C maxW d m).1 (update C maxW d m).2.1 = (d, m, 0) := by
  have h1 : update C maxW d m = (d, m, 0) := by
    unfold update
    rw [if_pos h]
  refine ⟨h1, ?_⟩
  rw [h1]
  exact h1

/-- Witness for C6: the synchronized manager of scenario C. -/
theorem spec_c6_witness :
    cInst.crc32 mgrC.mem % 4294967296 = mgrC.crc32v ∧
    update cInst 100000 devC mgrC = (devC, mgrC, 0) :=
  ⟨by decide, (spec_c6 cInst 100000 devC mgrC (by decide)).1⟩

theorem locateLoop_found_key (C : CRC) (d : Device) (key maxW : Nat) :
    ∀ (fuel a : Nat), (locateLoop C d key maxW fuel a).2 = true →
      readLE d (locateLoop C d key maxW fuel a).1 2 = key := by
  intro fuel
  induction fuel with
  | zero => intro a h; simp [locateLoop] at h
  | succ n ih =>
    intro a h
    by_cases ha : a < d.cap
    · by_cases hv : C.crc8 [readLE d a 2 % 256] % 256 = readByte d (a + 2)
      · by_cases hm : readLE d a 2 = key ∧ readLE d (a + 3) 4 < maxW
        · rw [locateLoop_found C d key maxW n a ha hv hm]
          exact hm.1
        · rw [locateLoop_skip C d key maxW n a ha hv hm] at h ⊢
          exact ih _ h
      · rw [locateLoop_miss C d key maxW n a ha hv] at h
        simp at h
    · rw [locateLoop_oob C d key maxW n a ha] at h
      simp at h

/-- C9: whenever locate() reports found, the 16-bit key stored at the
address it stopped at is the bound key, so an entry with a different key
is never matched, valid key_check or not: such headers are only skipped. -/
theorem spec_c9 (C : CRC) (maxW : Nat) (d : Device) (m : Manager)
    (h : (locate C maxW d m).2 = true) :
    readLE d (locate C maxW d m).1.addr 2 = m.key := by
  unfold locate at h ⊢
  exact locateLoop_found_key C d m.key maxW (d.cap + 1) m.addr h

/-- Witness for C9: a fresh manager bound to key 1 locates the scenario A
entry, and the key stored there is 1. -/
theorem spec_c9_witness :
    (locate cInst 2 devA mgrQ).2 = true ∧
    readLE devA (locate cInst 2 devA mgrQ).1.addr 2 = mgrQ.key :=
  ⟨by decide, spec_c9 cInst 2 devA mgrQ (by decide)⟩

/-- C5 (amended): the key_check byte the algorithm stores equals checksum8
of the FIRST byte of the stored key only (the source computes crc8 over
sizeof(uint8_t) = 1 byte of the 16-bit key, both when writing and when
scanning), not checksum8 of the full 16-bit key; and during locate() an
address whose key_check byte does not match checksum8 of the first byte
of the candidate key is treated as the start of free space: the scan
stops there, reports not found, and that address is the write target. -/
theorem spec_c5 (C : CRC) (d : Device) (m : Manager) (key maxW fuel a : Nat)
    (hfit : m.addr + 13 + m.mem.length ≤ d.cap)
    (ha : a < d.cap)
    (hmis : ¬ C.crc8 [readLE d a 2 % 256] % 256 = readByte d (a + 2)) :
    readByte (write d (initialise C m)) (m.addr + 2) =
      C.crc8 [readByte (write d (initialise C m)) m.addr] % 256 ∧
    locateLoop C d key maxW (fuel + 1) a = (a, false) := by
  constructor
  · have h1 : readByte (write d (initialise C m)) (m.addr + 2) =
        (initialise C m).crc8v % 256 :=
      kc_read_write d (initialise C m) hfit
    have h2 : readByte (write d (initialise C m)) m.addr = m.key % 256 :=
      key0_read_write d (initialise C m) hfit
    rw [h1, h2]
    show C.crc8 [m.key % 256] % 256 % 256 = C.crc8 [m.key % 256] % 256
    omega
  · exact locateLoop_miss C d key maxW fuel a ha hmis

/-- Witness for C5: the freshly constructed entry of scenario C satisfies
the stored relation, and scanning the erased 64-byte device stops at its
very first address. -/
theorem spec_c5_witness :
    readByte (write (erasedDev 64) (initialise cInst (freshMgr rec1 1))) 2 =
      cInst.crc8 [readByte (write (erasedDev 64) (initialise cInst (freshMgr rec1 1))) 0] % 256 ∧
    locateLoop cInst (erasedDev 64) 1 100000 65 0 = (0, false) :=
  ⟨(spec_c5 cInst (erasedDev 64) (freshMgr rec1 1) 1 100000 64 0
      (by decide) (by decide) (by decide)).1,
   (spec_c5 cInst (erasedDev 64) (freshMgr rec1 1) 1 100000 64 0
      (by decide) (by decide) (by decide)).2⟩

/-- Counterexample for C5 as stated: the entry written under key
257 = 0x0101 stores key bytes 1, 1 but its key_check byte is crc8 of the
single byte 1, which differs from checksum8 of the full 16-bit key
(crc8 of the two bytes 1, 1). -/
theorem spec_c5_cex :
    readLE devK 0 2 = 257 ∧
    readByte devK 2 ≠ cInst.crc8 [readLE devK 0 2 % 256, readLE devK 0 2 / 256] % 256 := by
  decide

/-- C8 (amended): a scan step that sees a valid header with a foreign key
or an exhausted write count advances the candidate address by the stored
length plus the 13-byte header overhead (2-byte key + 1-byte key_check +
4-byte write_count + 2-byte length + 4-byte payload_check) REDUCED MODULO
2 to the 16, because _ADDRESS is a uint16_t; whenever the sum stays below
2 to the 16 the advance is by exactly 13 + length.  In the 64-byte,
4-byte-record, max-writes-2 scenario no wrap occurs and the relocating
update() writes the new entry at address 17 = 13 + 4, whose stored write
count is 1, returning 1. -/
theorem spec_c8 (C : CRC) (d : Device) (key maxW fuel a : Nat)
    (ha : a < d.cap)
    (hv : C.crc8 [readLE d a 2 % 256] % 256 = readByte d (a + 2))
    (hm : ¬ (readLE d a 2 = key ∧ readLE d (a + 3) 4 < maxW)) :
    locateLoop C d key maxW (fuel + 1) a =
      locateLoop C d key maxW fuel ((a + readLE d (a + 7) 2 + 13) % 65536) ∧
    (a + readLE d (a + 7) 2 + 13 < 65536 →
      locateLoop C d key maxW (fuel + 1) a =
        locateLoop C d key maxW fuel (a + readLE d (a + 7) 2 + 13)) ∧
    (update cInst 2 devA mgrA2).2.1.addr = 17 ∧
    readLE (update cInst 2 devA mgrA2).1 (17 + 3) 4 = 1 ∧
    (update cInst 2 devA mgrA2).2.2 = 1 := by
  refine ⟨locateLoop_skip C d key maxW fuel a ha hv hm, ?_, by decide, by decide, by decide⟩
  intro h
  rw [locateLoop_skip C d key maxW fuel a ha hv hm, Nat.mod_eq_of_lt h]

/-- Witness for C8: on the scenario A device a manager bound to the
foreign key 2 skips the key-1 entry at address 0, advancing by its
stored length 4 plus 13 (no wrap). -/
theorem spec_c8_witness :
    locateLoop cInst devA 2 100000 5 0 =
      locateLoop cInst devA 2 100000 4 (0 + readLE devA (0 + 7) 2 + 13) ∧
    readLE devA (0 + 7) 2 = 4 :=
  ⟨(spec_c8 cInst devA 2 100000 4 0 (by decide) (by decide) (by decide)).2.1 (by decide),
   by decide⟩

/-- Counterexample for C8 as stated: on a device whose garbage header at
address 0 passes the one-byte key_check and stores length 65523, the
uint16 skip step computes (0 + 65523 + 13) mod 65536 = 0 and re-probes
address 0 instead of advancing the candidate address by exactly
13 + 65523 = 65536 bytes. -/
theorem spec_c8_cex :
    locateLoop cInst devW 1 2 5 0 = locateLoop cInst devW 1 2 4 0 ∧
    readLE devW (0 + 7) 2 = 65523 ∧
    (0 : Nat) ≠ 0 + 65523 + 13 := by
  decide

/-- C10: force() writes the full entry at the active address from the
shadow state cached at the last synchronization, without recomputing the
payload checksum and without touching the shadow write_count or
payload_check; so after mutating the record, the payload_check stored by
force() differs from checksum32 of the payload bytes just written. -/
theorem spec_c10 (C : CRC) (d : Device) (m : Manager)
    (hfit : m.addr + 13 + m.mem.length ≤ d.cap)
    (hb : ∀ b ∈ m.mem, b < 256)
    (hv : m.crc32v < 4294967296)
    (hne : ¬ C.crc32 m.mem % 4294967296 = m.crc32v) :
    (force d m).2 = m ∧
    readLE (force d m).1 (m.addr + 9 + m.mem.length) 4 = m.crc32v ∧
    readBytes (force d m).1 (m.addr + 9) m.mem.length = m.mem ∧
    readLE (force d m).1 (m.addr + 9 + m.mem.length) 4 ≠
      C.crc32 (readBytes (force d m).1 (m.addr + 9) m.mem.length) % 4294967296 := by
  have h1 : readLE (write d m) (m.addr + 9 + m.mem.length) 4 = m.crc32v := by
    rw [crc32_read_write d m hfit]
    exact Nat.mod_eq_of_lt hv
  have h2 : readBytes (write d m) (m.addr + 9) m.mem.length = m.mem :=
    mem_read_write d m hfit hb
  refine ⟨rfl, h1, h2, ?_⟩
  show readLE (write d m) (m.addr + 9 + m.mem.length) 4 ≠
    C.crc32 (readBytes (write d m) (m.addr + 9) m.mem.length) % 4294967296
  rw [h1, h2]
  exact fun hq => hne hq.symm

/-- Witness for C10: forcing the scenario A manager after its record was
mutated stores the stale payload_check while writing the new payload. -/
theorem spec_c10_witness :
    ¬ cInst.crc32 mgrA2.mem % 4294967296 = mgrA2.crc32v ∧
    (force devA mgrA2).2 = mgrA2 ∧
    readLE (force devA mgrA2).1 (mgrA2.addr + 9 + mgrA2.mem.length) 4 = mgrA2.crc32v :=
  ⟨by decide,
   (spec_c10 cInst devA mgrA2 (by decide) (by decide) (by decide) (by decide)).1,
   (spec_c10 cInst devA mgrA2 (by decide) (by decide) (by decide) (by decide)).2.1⟩

/-- C1: when the record checksum differs from the shadow payload_check,
update() increments the stored write_count by exactly 1 and returns it
while the incremented count is still below max_writes; when the
incremented count reaches max_writes, relocation is triggered and the
write_count stored at the new active address A is 1, which is also the
return value. -/
theorem spec_c1 (C : CRC) (maxW : Nat) (d : Device) (m : Manager)
    (hne : ¬ C.crc32 m.mem % 4294967296 = m.crc32v)
    (hfit : m.addr + 13 + m.mem.length ≤ d.cap)
    (hcnt : m.count + 1 < 4294967296)
    (hcap : d.cap < 4294967296)
    (hsync : readLE d (m.addr + 3) 4 = m.count) :
    (m.count + 1 < maxW →
      (update C maxW d m).2.2 = m.count + 1 ∧
      readLE (update C maxW d m).1 (m.addr + 3) 4 = readLE d (m.addr + 3) 4 + 1 ∧
      (update C maxW d m).2.1.addr = m.addr ∧
      (update C maxW d m).2.1.count = m.count + 1) ∧
    (m.count + 1 = maxW →
      ∀ A, A = (locateLoop C (updateWrites d (updateBump C m)) m.key maxW
          (d.cap + 1) m.addr).1 →
        A + (13 + m.mem.length) < d.cap →
        (update C maxW d m).2.2 = 1 ∧
        readLE (update C maxW d m).1 (A + 3) 4 = 1 ∧
        (update C maxW d m).2.1.addr = A ∧
        (update C maxW d m).2.1.count = 1) := by
  have hm1 : (m.count + 1) % 4294967296 = m.count + 1 := Nat.mod_eq_of_lt hcnt
  constructor
  · intro hlt
    have hge : ¬ (updateBump C m).count ≥ maxW := by
      show ¬ (m.count + 1) % 4294967296 ≥ maxW
      omega
    have key : update C maxW d m =
        (updateWrites d (updateBump C m), updateBump C m, (updateBump C m).count) := by
      unfold update
      rw [if_neg hne, if_neg hge]
    rw [key]
    refine ⟨?_, ?_, rfl, ?_⟩
    · show (m.count + 1) % 4294967296 = m.count + 1
      exact hm1
    · rw [hsync]
      have hc2 : readLE (updateWrites d (updateBump C m)) (m.addr + 3) 4 =
          (m.count + 1) % 4294967296 % 4294967296 :=
        count_read_updateWrites d (updateBump C m) hfit
      show readLE (updateWrites d (updateBump C m)) (m.addr + 3) 4 = m.count + 1
      omega
    · show (m.count + 1) % 4294967296 = m.count + 1
      exact hm1
  · intro heq A hA hs
    have hge : (updateBump C m).count ≥ maxW := by
      show (m.count + 1) % 4294967296 ≥ maxW
      omega
    have key : update C maxW d m =
        updateRelocate C maxW (updateWrites d (updateBump C m)) (updateBump C m) := by
      unfold update
      rw [if_neg hne, if_pos hge]
    have hcap1 : (updateWrites d (updateBump C m)).cap = d.cap :=
      updateWrites_cap d (updateBump C m)
    have hA2 : (locate C maxW (updateWrites d (updateBump C m)) (updateBump C m)).1.addr = A := by
      show (locateLoop C (updateWrites d (updateBump C m)) (updateBump C m).key maxW
          ((updateWrites d (updateBump C m)).cap + 1) (updateBump C m).addr).1 = A
      rw [hcap1]
      exact hA.symm
    have hcond : (locate C maxW (updateWrites d (updateBump C m)) (updateBump C m)).1.addr <
        ((updateWrites d (updateBump C m)).cap + 4294967296 -
          (13 + (updateBump C m).mem.length)) % 4294967296 := by
      rw [hA2, hcap1]
      show A < (d.cap + 4294967296 - (13 + m.mem.length)) % 4294967296
      omega
    have key2 : updateRelocate C maxW (updateWrites d (updateBump C m)) (updateBump C m) =
        (write (updateWrites d (updateBump C m))
          { (locate C maxW (updateWrites d (updateBump C m)) (updateBump C m)).1 with count := 1 },
         { (locate C maxW (updateWrites d (updateBump C m)) (updateBump C m)).1 with count := 1 },
         1) := by
      unfold updateRelocate
      rw [if_pos hcond]
    rw [key, key2]
    have hmaddr : ({ (locate C maxW (updateWrites d (updateBump C m)) (updateBump C m)).1
        with count := 1 } : Manager).addr = A := hA2
    have hmlen : ({ (locate C maxW (updateWrites d (updateBump C m)) (updateBump C m)).1
        with count := 1 } : Manager).mem.length = m.mem.length := rfl
    refine ⟨rfl, ?_, hmaddr, rfl⟩
    show readLE (write (updateWrites d (updateBump C m))
        { (locate C maxW (updateWrites d (updateBump C m)) (updateBump C m)).1
          with count := 1 }) (A + 3) 4 = 1
    have hfit3 : ({ (locate C maxW (updateWrites d (updateBump C m)) (updateBump C m)).1
        with count := 1 } : Manager).addr + 13 +
        ({ (locate C maxW (updateWrites d (updateBump C m)) (updateBump C m)).1
          with count := 1 } : Manager).mem.length ≤
        (updateWrites d (updateBump C m)).cap := by
      rw [hmaddr, hmlen, hcap1]
      omega
    have hcr := count_read_write (updateWrites d (updateBump C m))
      ({ (locate C maxW (updateWrites d (updateBump C m)) (updateBump C m)).1
        with count := 1 }) hfit3
    rw [hmaddr] at hcr
    rw [hcr]
    show (1 : Nat) % 4294967296 = 1
    norm_num

/-- Witness for C1: scenario C exercises the in-place branch (count 1 to
2, limit 100000); scenario A with limit 2 exercises the relocation
branch, landing at address 17 with return value 1. -/
theorem spec_c1_witness :
    ¬ cInst.crc32 mgrC2.mem % 4294967296 = mgrC2.crc32v ∧
    (update cInst 100000 devC mgrC2).2.2 = mgrC2.count + 1 ∧
    (update cInst 2 devA mgrA2).2.2 = 1 :=
  ⟨by decide,
   ((spec_c1 cInst 100000 devC mgrC2 (by decide) (by decide) (by decide) (by decide)
      (by decide)).1 (by decide)).1,
   ((spec_c1 cInst 2 devA mgrA2 (by decide) (by decide) (by decide) (by decide)
      (by decide)).2 (by decide) 17 (by decide) (by decide)).1⟩

/-- The exhausted branch of update(): once the incremented count reaches
the limit and the post-locate address leaves no room for a full entry,
update() returns the sentinel with the partially rewritten device. -/
theorem update_nospace (C : CRC) (maxW : Nat) (d : Device) (m : Manager)
    (hne : ¬ C.crc32 m.mem % 4294967296 = m.crc32v)
    (hge : (updateBump C m).count ≥ maxW)
    (hfit : m.addr + 13 + m.mem.length ≤ d.cap)
    (hcap : d.cap < 4294967296)
    (hnospace : ¬ ((locateLoop C (updateWrites d (updateBump C m)) m.key maxW
        (d.cap + 1) m.addr).1 + (13 + m.mem.length) < d.cap)) :
    update C maxW d m =
      (updateWrites d (updateBump C m),
       (locate C maxW (updateWrites d (updateBump C m)) (updateBump C m)).1,
       4294967295) := by
  have key : update C maxW d m =
      updateRelocate C maxW (updateWrites d (updateBump C m)) (updateBump C m) := by
    unfold update
    rw [if_neg hne, if_pos hge]
  have hcap1 : (updateWrites d (updateBump C m)).cap = d.cap :=
    updateWrites_cap d (updateBump C m)
  have hA2 : (locate C maxW (updateWrites d (updateBump C m)) (updateBump C m)).1.addr =
      (locateLoop C (updateWrites d (updateBump C m)) m.key maxW (d.cap + 1) m.addr).1 := by
    show (locateLoop C (updateWrites d (updateBump C m)) (updateBump C m).key maxW
        ((updateWrites d (updateBump C m)).cap + 1) (updateBump C m).addr).1 = _
    rw [hcap1]
    exact rfl
  have hcond : ¬ ((locate C maxW (updateWrites d (updateBump C m)) (updateBump C m)).1.addr <
      ((updateWrites d (updateBump C m)).cap + 4294967296 -
        (13 + (updateBump C m).mem.length)) % 4294967296) := by
    rw [hA2, hcap1]
    show ¬ ((locateLoop C (updateWrites d (updateBump C m)) m.key maxW
        (d.cap + 1) m.addr).1 < (d.cap + 4294967296 - (13 + m.mem.length)) % 4294967296)
    omega
  rw [key]
  unfold updateRelocate
  rw [if_neg hcond]

/-- C3 (amended): a failed relocation performs no device write beyond the
in-place partial update that update() always issues before attempting
relocation: it returns the sentinel, the device is exactly the state
after that partial write, the old entry's key, key_check and length bytes
(and every byte outside the entry) are untouched, and the old entry is
still internally consistent (its stored payload is the current record and
its stored payload_check is the checksum of that payload); the old
entry's write_count, payload and payload_check bytes, however, were
already updated in place before relocation was attempted. -/
theorem spec_c3 (C : CRC) (maxW : Nat) (d : Device) (m : Manager)
    (hne : ¬ C.crc32 m.mem % 4294967296 = m.crc32v)
    (hfit : m.addr + 13 + m.mem.length ≤ d.cap)
    (hcnt : m.count + 1 < 4294967296)
    (hcap : d.cap < 4294967296)
    (hmax : maxW ≤ m.count + 1)
    (hb : ∀ b ∈ m.mem, b < 256)
    (hnospace : ¬ ((locateLoop C (updateWrites d (updateBump C m)) m.key maxW
        (d.cap + 1) m.addr).1 + (13 + m.mem.length) < d.cap)) :
    (update C maxW d m).2.2 = 4294967295 ∧
    (update C maxW d m).1 = updateWrites d (updateBump C m) ∧
    (∀ x, x < m.addr + 3 ∨ (m.addr + 7 ≤ x ∧ x < m.addr + 9) ∨
        m.addr + 13 + m.mem.length ≤ x →
      readByte (update C maxW d m).1 x = readByte d x) ∧
    readBytes (update C maxW d m).1 (m.addr + 9) m.mem.length = m.mem ∧
    readLE (update C maxW d m).1 (m.addr + 9 + m.mem.length) 4 =
      C.crc32 m.mem % 4294967296 := by
  have hm1 : (m.count + 1) % 4294967296 = m.count + 1 := Nat.mod_eq_of_lt hcnt
  have hge : (updateBump C m).count ≥ maxW := by
    show (m.count + 1) % 4294967296 ≥ maxW
    omega
  have key := update_nospace C maxW d m hne hge hfit hcap hnospace
  rw [key]
  refine ⟨rfl, rfl, ?_, ?_, ?_⟩
  · intro x hx
    show readByte (updateWrites d (updateBump C m)) x = readByte d x
    exact readByte_updateWrites_frame d (updateBump C m) x hx
  · show readBytes (updateWrites d (updateBump C m)) (m.addr + 9) m.mem.length = m.mem
    exact mem_read_updateWrites d (updateBump C m) hfit hb
  · show readLE (updateWrites d (updateBump C m)) (m.addr + 9 + m.mem.length) 4 =
      C.crc32 m.mem % 4294967296
    have h2 : readLE (updateWrites d (updateBump C m)) (m.addr + 9 + m.mem.length) 4 =
        C.crc32 m.mem % 4294967296 % 4294967296 :=
      crc32_read_updateWrites d (updateBump C m) hfit
    omega

/-- Counterexample for C3 as stated: in scenario B the relocation fails
(return 0xFFFFFFFF), yet the bytes of the old entry at address 0 are not
the same after the call as before it — both the write_count byte at
address 3 and the payload byte at address 9 changed. -/
theorem spec_c3_cex :
    (update cInst 2 devB mgrB2).2.2 = 4294967295 ∧
    readByte (update cInst 2 devB mgrB2).1 3 ≠ readByte devB 3 ∧
    readByte (update cInst 2 devB mgrB2).1 9 ≠ readByte devB 9 := by
  decide

/-- Witness for C3 at scenario B. -/
theorem spec_c3_witness :
    ¬ cInst.crc32 mgrB2.mem % 4294967296 = mgrB2.crc32v ∧
    (update cInst 2 devB mgrB2).2.2 = 4294967295 ∧
    readBytes (update cInst 2 devB mgrB2).1 (mgrB2.addr + 9) mgrB2.mem.length = mgrB2.mem :=
  ⟨by decide,
   (spec_c3 cInst 2 devB mgrB2 (by decide) (by decide) (by decide) (by decide)
      (by decide) (by decide) (by decide)).1,
   (spec_c3 cInst 2 devB mgrB2 (by decide) (by decide) (by decide) (by decide)
      (by decide) (by decide) (by decide)).2.2.2.1⟩

/-- C7: when update() reaches max_writes and the relocation scan finds no
address leaving room for a full entry, it returns the all-bits-set
sentinel 0xFFFFFFFF and the write_count stored at the old address is
max_writes. -/
theorem spec_c7 (C : CRC) (maxW : Nat) (d : Device) (m : Manager)
    (hne : ¬ C.crc32 m.mem % 4294967296 = m.crc32v)
    (hfit : m.addr + 13 + m.mem.length ≤ d.cap)
    (hcap : d.cap < 4294967296)
    (hmaxeq : m.count + 1 = maxW)
    (hmaxlt : maxW < 4294967296)
    (hnospace : ¬ ((locateLoop C (updateWrites d (updateBump C m)) m.key maxW
        (d.cap + 1) m.addr).1 + (13 + m.mem.length) < d.cap)) :
    (update C maxW d m).2.2 = 4294967295 ∧
    readLE (update C maxW d m).1 (m.addr + 3) 4 = maxW := by
  have hge : (updateBump C m).count ≥ maxW := by
    show (m.count + 1) % 4294967296 ≥ maxW
    omega
  have key := update_nospace C maxW d m hne hge hfit hcap hnospace
  rw [key]
  refine ⟨rfl, ?_⟩
  show readLE (updateWrites d (updateBump C m)) (m.addr + 3) 4 = maxW
  have h2 : readLE (updateWrites d (updateBump C m)) (m.addr + 3) 4 =
      (m.count + 1) % 4294967296 % 4294967296 :=
    count_read_updateWrites d (updateBump C m) hfit
  omega

/-- Witness for C7 at scenario B: the old entry's stored write_count after
the failed call is the limit 2. -/
theorem spec_c7_witness :
    ¬ cInst.crc32 mgrB2.mem % 4294967296 = mgrB2.crc32v ∧
    (update cInst 2 devB mgrB2).2.2 = 4294967295 ∧
    readLE (update cInst 2 devB mgrB2).1 (mgrB2.addr + 3) 4 = 2 :=
  ⟨by decide,
   (spec_c7 cInst 2 devB mgrB2 (by decide) (by decide) (by decide) (by decide)
      (by decide) (by decide)).1,
   (spec_c7 cInst 2 devB mgrB2 (by decide) (by decide) (by decide) (by decide)
      (by decide) (by decide)).2⟩

/-- begin() over a device whose every byte reads as the erased sentinel:
the scan stops immediately at the current _ADDRESS (which begin does not
reset) and the fresh entry is written there. -/
theorem begin_miss (C : CRC) (maxW : Nat) (d : Device) (m : Manager)
    (h255 : ∀ y, readByte d y = 255)
    (ha : m.addr < d.cap)
    (hff : ¬ C.crc8 [255] % 256 = 255) :
    begin C maxW d m = (write d (initialise C m), initialise C m) := by
  have hmis : ¬ C.crc8 [readLE d m.addr 2 % 256] % 256 = readByte d (m.addr + 2) := by
    rw [readLE2_const255 d h255 m.addr, h255 (m.addr + 2)]
    have h65 : (65535 : Nat) % 256 = 255 := by norm_num
    rw [h65]
    exact hff
  have hloop : locateLoop C d m.key maxW (d.cap + 1) m.addr = (m.addr, false) :=
    locateLoop_miss C d m.key maxW d.cap m.addr ha hmis
  have h2 : (locate C maxW d (initialise C m)).2 = false := by
    show (locateLoop C d m.key maxW (d.cap + 1) m.addr).2 = false
    rw [hloop]
  have h1 : (locate C maxW d (initialise C m)).1 = initialise C m := by
    have h3 : (locateLoop C d (initialise C m).key maxW (d.cap + 1)
        (initialise C m).addr).1 = m.addr := by
      show (locateLoop C d m.key maxW (d.cap + 1) m.addr).1 = m.addr
      rw [hloop]
    show ({ initialise C m with addr := (locateLoop C d (initialise C m).key maxW
        (d.cap + 1) (initialise C m).addr).1 } : Manager) = initialise C m
    rw [h3]
    exact rfl
  unfold begin
  rw [h2, h1]
  simp

/-- C4 (amended): after wipe() every addressable byte reads as the erased
sentinel 255 except the bytes of one freshly written entry located at the
manager's current scan address _ADDRESS, which wipe() does not reset;
the fresh entry holds the bound record with write_count 1.  For a manager
whose address is 0 (as after construction without relocation) the entry
is at address 0. -/
theorem spec_c4 (C : CRC) (maxW : Nat) (d : Device) (m : Manager)
    (hff : ¬ C.crc8 [255] % 256 = 255)
    (hfit : m.addr + 13 + m.mem.length ≤ d.cap)
    (hb : ∀ b ∈ m.mem, b < 256) :
    (wipe C maxW d m).2.addr = m.addr ∧
    (∀ a, a < m.addr ∨ m.addr + 13 + m.mem.length ≤ a →
      readByte (wipe C maxW d m).1 a = 255) ∧
    readBytes (wipe C maxW d m).1 (m.addr + 9) m.mem.length = m.mem ∧
    readLE (wipe C maxW d m).1 (m.addr + 3) 4 = 1 := by
  have h255 : ∀ y, readByte (wipeLoop d 0 d.cap) y = 255 := readByte_wiped d
  have ha : m.addr < (wipeLoop d 0 d.cap).cap := by
    rw [wipeLoop_cap]
    omega
  have hb1 := begin_miss C maxW (wipeLoop d 0 d.cap) m h255 ha hff
  have hfitW : (initialise C m).addr + 13 + (initialise C m).mem.length ≤
      (wipeLoop d 0 d.cap).cap := by
    rw [wipeLoop_cap]
    exact hfit
  unfold wipe
  rw [hb1]
  refine ⟨rfl, ?_, ?_, ?_⟩
  · intro a hx
    show readByte (write (wipeLoop d 0 d.cap) (initialise C m)) a = 255
    rw [readByte_write_frame (wipeLoop d 0 d.cap) (initialise C m) a hx]
    exact h255 a
  · show readBytes (write (wipeLoop d 0 d.cap) (initialise C m))
      (m.addr + 9) m.mem.length = m.mem
    exact mem_read_write (wipeLoop d 0 d.cap) (initialise C m) hfitW hb
  · show readLE (write (wipeLoop d 0 d.cap) (initialise C m)) (m.addr + 3) 4 = 1
    calc readLE (write (wipeLoop d 0 d.cap) (initialise C m)) (m.addr + 3) 4
        = (1 : Nat) % 4294967296 := count_read_write (wipeLoop d 0 d.cap) (initialise C m) hfitW
      _ = 1 := by norm_num

/-- Witness for C4: wiping through the scenario A manager (address 0)
leaves the fresh entry at address 0. -/
theorem spec_c4_witness :
    ¬ cInst.crc8 [255] % 256 = 255 ∧
    (wipe cInst 2 devA mgrA).2.addr = mgrA.addr ∧
    readLE (wipe cInst 2 devA mgrA).1 (mgrA.addr + 3) 4 = 1 :=
  ⟨by decide,
   (spec_c4 cInst 2 devA mgrA (by decide) (by decide) (by decide)).1,
   (spec_c4 cInst 2 devA mgrA (by decide) (by decide) (by decide)).2.2.2⟩

/-- Counterexample for C4 as stated: wiping through a manager whose scan
address is 17 leaves byte 17 holding the key byte 1 rather than 255, even
though address 17 is addressable and lies outside the region an entry at
address 0 would occupy (13 + 4 = 17 bytes); moreover byte 0 itself reads
as the erased sentinel, so no fresh entry sits at address 0. -/
theorem spec_c4_cex :
    readByte (wipe cInst 2 (erasedDev 64) mgr17).1 17 = 1 ∧
    (1 : Nat) ≠ 255 ∧
    13 + (4 : Nat) ≤ 17 ∧ (17 : Nat) < 64 ∧
    readByte (wipe cInst 2 (erasedDev 64) mgr17).1 0 = 255 := by
  decide

/-- C2: writing an entry for key k (first construction over an erased
device) and then constructing a fresh manager bound to the same key over
the same device locates that entry and reads back payload bytes identical
to those written, the durable copy overwriting whatever record Q the
fresh manager held at construction time. -/
theorem spec_c2 (C : CRC) (maxW cap k : Nat) (P Q : List Nat)
    (hk : k < 65536)
    (hP : ∀ b ∈ P, b < 256)
    (hQ : Q.length = P.length)
    (hcap : 13 + P.length ≤ cap)
    (hmax : 1 < maxW)
    (hff : ¬ C.crc8 [255] % 256 = 255) :
    (construct C maxW (construct C maxW (erasedDev cap) P k).1 Q k).2.mem = P ∧
    (construct C maxW (construct C maxW (erasedDev cap) P k).1 Q k).2.addr = 0 := by
  have h255 : ∀ y, readByte (erasedDev cap) y = 255 := readByte_erasedDev cap
  have ha0 : (freshMgr P k).addr < (erasedDev cap).cap := by
    show 0 < cap
    omega
  have hc1 : begin C maxW (erasedDev cap) (freshMgr P k) =
      (write (erasedDev cap) (initialise C (freshMgr P k)),
       initialise C (freshMgr P k)) :=
    begin_miss C maxW (erasedDev cap) (freshMgr P k) h255 ha0 hff
  have hfit1 : (initialise C (freshMgr P k)).addr + 13 +
      (initialise C (freshMgr P k)).mem.length ≤ (erasedDev cap).cap := by
    show 0 + 13 + P.length ≤ cap
    omega
  have hkey : readLE (write (erasedDev cap) (initialise C (freshMgr P k))) 0 2 = k := by
    calc readLE (write (erasedDev cap) (initialise C (freshMgr P k))) 0 2
        = k % 65536 % 65536 := key_read_write (erasedDev cap) (initialise C (freshMgr P k)) hfit1
      _ = k := by omega
  have hkc : readByte (write (erasedDev cap) (initialise C (freshMgr P k))) 2 =
      C.crc8 [k % 256] % 256 := by
    calc readByte (write (erasedDev cap) (initialise C (freshMgr P k))) 2
        = C.crc8 [k % 65536 % 256] % 256 % 256 :=
          kc_read_write (erasedDev cap) (initialise C (freshMgr P k)) hfit1
      _ = C.crc8 [k % 256] % 256 := by
          have hm : k % 65536 % 256 = k % 256 := by omega
          rw [hm]
          omega
  have hcnt1 : readLE (write (erasedDev cap) (initialise C (freshMgr P k))) 3 4 = 1 := by
    calc readLE (write (erasedDev cap) (initialise C (freshMgr P k))) 3 4
        = (1 : Nat) % 4294967296 :=
          count_read_write (erasedDev cap) (initialise C (freshMgr P k)) hfit1
      _ = 1 := by norm_num
  have hfound : locateLoop C (write (erasedDev cap) (initialise C (freshMgr P k)))
      (k % 65536) maxW
      ((write (erasedDev cap) (initialise C (freshMgr P k))).cap + 1) 0 = (0, true) := by
    apply locateLoop_found
    · show (0 : Nat) < (write (erasedDev cap) (initialise C (freshMgr P k))).cap
      rw [write_cap]
      show (0 : Nat) < cap
      omega
    · rw [hkey]
      exact hkc.symm
    · constructor
      · rw [hkey]
        omega
      · have h1 : readLE (write (erasedDev cap) (initialise C (freshMgr P k)))
            (0 + 3) 4 = 1 := hcnt1
        omega
  have hc2 : begin C maxW (write (erasedDev cap) (initialise C (freshMgr P k)))
      (freshMgr Q k) =
      (write (erasedDev cap) (initialise C (freshMgr P k)),
       read (write (erasedDev cap) (initialise C (freshMgr P k)))
         (initialise C (freshMgr Q k))) := by
    have h2 : (locate C maxW (write (erasedDev cap) (initialise C (freshMgr P k)))
        (initialise C (freshMgr Q k))).2 = true := by
      show (locateLoop C (write (erasedDev cap) (initialise C (freshMgr P k)))
        (k % 65536) maxW
        ((write (erasedDev cap) (initialise C (freshMgr P k))).cap + 1) 0).2 = true
      rw [hfound]
    have h1 : (locate C maxW (write (erasedDev cap) (initialise C (freshMgr P k)))
        (initialise C (freshMgr Q k))).1 = initialise C (freshMgr Q k) := by
      have h3 : (locateLoop C (write (erasedDev cap) (initialise C (freshMgr P k)))
          (initialise C (freshMgr Q k)).key maxW
          ((write (erasedDev cap) (initialise C (freshMgr P k))).cap + 1)
          (initialise C (freshMgr Q k)).addr).1 = 0 := by
        show (locateLoop C (write (erasedDev cap) (initialise C (freshMgr P k)))
          (k % 65536) maxW
          ((write (erasedDev cap) (initialise C (freshMgr P k))).cap + 1) 0).1 = 0
        rw [hfound]
      show ({ initialise C (freshMgr Q k) with
          addr := (locateLoop C (write (erasedDev cap) (initialise C (freshMgr P k)))
            (initialise C (freshMgr Q k)).key maxW
            ((write (erasedDev cap) (initialise C (freshMgr P k))).cap + 1)
            (initialise C (freshMgr Q k)).addr).1 } : Manager) =
        initialise C (freshMgr Q k)
      rw [h3]
      exact rfl
    unfold begin
    rw [h2, h1]
    simp
  unfold construct
  rw [hc1]
  show (begin C maxW (write (erasedDev cap) (initialise C (freshMgr P k)))
      (freshMgr Q k)).2.mem = P ∧
    (begin C maxW (write (erasedDev cap) (initialise C (freshMgr P k)))
      (freshMgr Q k)).2.addr = 0
  rw [hc2]
  constructor
  · show readBytes (write (erasedDev cap) (initialise C (freshMgr P k)))
      ((initialise C (freshMgr Q k)).addr + 9)
      (initialise C (freshMgr Q k)).mem.length = P
    have hlen : (initialise C (freshMgr Q k)).mem.length = P.length := hQ
    rw [hlen]
    exact mem_read_write (erasedDev cap) (initialise C (freshMgr P k)) hfit1 hP
  · exact rfl

/-- Witness for C2: writing rec1 under key 1 and rebinding a manager that
holds rec2 recovers rec1 at address 0. -/
theorem spec_c2_witness :
    ¬ cInst.crc8 [255] % 256 = 255 ∧
    (construct cInst 2 (construct cInst 2 (erasedDev 64) rec1 1).1 rec2 1).2.mem = rec1 :=
  ⟨by decide,
   (spec_c2 cInst 2 64 1 rec1 rec2 (by decide) (by decide) (by decide) (by decide)
      (by decide) (by decide)).1⟩

end EEPROManager
